import Mathlib

/-!
Shallow embedding of `src/shell.ts` (platform shim of the kubernetes tools
extension) and verification of its specification.

Modelling conventions:
  * JS objects holding environment variables are association lists in
    insertion order (`Env`); property read is first-match lookup, property
    write replaces in place or appends at the end, exactly as JS objects do.
  * Mutable JS objects are modelled with a tiny heap (`Heap`): a list of
    objects addressed by allocation index.  `Object.assign({}, e)` allocates
    a fresh object at the end of the heap.
  * The outside world (`process.platform`, `shelljs.which`, the results of
    running the two helper commands) is a record `World`; helper invocations
    are deterministic reads of that record.
  * A thrown JS `TypeError` (the `null` dereference reachable in
    `autoDockerEnvConfig`) is `Except.error ()`.
  * JS truthiness of an environment value (`undefined` and `""` are falsy,
    every other string truthy) is the `truthy` predicate.
-/

set_option autoImplicit false

/-- Result of a `shelljs.exec` invocation: exit code and captured streams. -/
structure ShellResult where
  code : Int
  stdout : String
  stderr : String
deriving DecidableEq

/-- Ambient facts the code reads from the outside world: `process.platform`,
whether `shelljs.which` finds each helper on PATH, and what each helper
prints when run with `docker-env`. -/
structure World where
  platform : String
  whichMinikube : Bool
  whichMinishift : Bool
  minikubeResult : ShellResult
  minishiftResult : ShellResult
deriving DecidableEq

/-- The `vs-kubernetes` configuration section: the three tool paths and the
kubeconfig setting (`none` models an absent setting). -/
structure Config where
  kubectlPath : Option String
  helmPath : Option String
  draftPath : Option String
  kubeconfig : Option String
deriving DecidableEq

/-- Lookup of `vs-kubernetes.${tool}-path` in the configuration. -/
def Config.toolPath (c : Config) (tool : String) : Option String :=
  if tool = "kubectl" then c.kubectlPath
  else if tool = "helm" then c.helmPath
  else if tool = "draft" then c.draftPath
  else none

/-- An environment object: JS object as association list in insertion order. -/
abbrev Env := List (String × String)

/-- The heap of mutable environment objects, addressed by allocation index. -/
abbrev Heap := List Env

/-- JS property read: value of the first entry with the given key. -/
def envLookup : Env → String → Option String
  | [], _ => none
  | (k, v) :: t, n => if k = n then some v else envLookup t n

/-- JS property write: replace the value in place if the key exists,
otherwise append the new entry at the end (JS object insertion order). -/
def envSet : Env → String → String → Env
  | [], n, v => [(n, v)]
  | (k, x) :: t, n, v => if k = n then (k, v) :: t else (k, x) :: envSet t n v

/-- Read the object at a heap address (out-of-range reads give the empty
object; the embedded code never performs one). -/
def heapGet : Heap → Nat → Env
  | [], _ => []
  | e :: _, 0 => e
  | _ :: t, n + 1 => heapGet t n

/-- Overwrite the object at a heap address. -/
def heapSet : Heap → Nat → Env → Heap
  | [], _, _ => []
  | _ :: t, 0, e => e :: t
  | x :: t, n + 1, e => x :: heapSet t n e

/-- JS truthiness of an environment read: `undefined` and the empty string
are falsy, every other string is truthy. -/
def truthy : Option String → Bool
  | none => false
  | some s => !(s == "")

/-- The string constant `WINDOWS` of the source. -/
def WINDOWS : String := "win32"

/-- Source `isWindows()`: whether `process.platform` is `'win32'`. -/
def isWindows (w : World) : Bool := w.platform == WINDOWS

/-- Source `isUnix()`. -/
def isUnix (w : World) : Bool := !(isWindows w)

/-- The `Platform` enumeration of the source. -/
inductive Platform where
  | Windows
  | MacOS
  | Linux
  | Unsupported
deriving DecidableEq

/-- Source `platform()`: switch on `process.platform` with strict string
equality; unmatched identifiers fall to the default case. -/
def platform (w : World) : Platform :=
  if w.platform = "win32" then Platform.Windows
  else if w.platform = "darwin" then Platform.MacOS
  else if w.platform = "linux" then Platform.Linux
  else Platform.Unsupported

/-- A global single-character regex replacement such as
`s.replace(/\//g, '\\')`: rewrite every occurrence of `pat` to `rep`. -/
def replaceAllChar (pat rep : Char) (s : String) : String :=
  String.mk (s.toList.map (fun c => if c = pat then rep else c))

/-- Source `combinePath(basePath, relativePath)`: on Windows rewrite every
forward slash of the relative part to a backslash and join with a backslash,
otherwise join with a forward slash. -/
def combinePath (w : World) (basePath relativePath : String) : String :=
  if isWindows w then basePath ++ "\\" ++ replaceAllChar '/' '\\' relativePath
  else basePath ++ "/" ++ relativePath

/-- External `vscode.Uri`, modelled as the URI string handed to
`vscode.Uri.parse` (the parse itself is library code outside this repo). -/
structure Uri where
  raw : String
deriving DecidableEq

/-- Source `fileUri(filePath)`: on Windows rewrite every backslash to a
forward slash and prefix `file:///`, otherwise prefix `file://`. -/
def fileUri (w : World) (filePath : String) : Uri :=
  if isWindows w then Uri.mk ("file:///" ++ replaceAllChar '\\' '/' filePath)
  else Uri.mk ("file://" ++ filePath)

/-- Node `path.dirname`, POSIX variant (the win32 variant additionally
handles drive and UNC roots; the claims only exercise POSIX paths): ignore
trailing slashes, cut at the last remaining slash at index at least 1, with
the special root results of the Node implementation. -/
def posixDirname (p : String) : String :=
  match p.toList with
  | [] => "."
  | c0 :: rest =>
    let afterName :=
      ((rest.reverse).dropWhile (fun c => c == '/')).dropWhile (fun c => !(c == '/'))
    if afterName.isEmpty then (if c0 == '/' then "/" else ".")
    else if (c0 == '/') && (afterName.length == 1) then "//"
    else String.mk ((c0 :: rest).take afterName.length)

/-- ECMAScript `\s` character class (WhiteSpace plus LineTerminator). -/
def isJsSpace (c : Char) : Bool :=
  c == ' ' || c == '\t' || c == '\n' || c == '\r' || c == '\x0b' || c == '\x0c' ||
  c.toNat == 0xa0 || c.toNat == 0x1680 ||
  (0x2000 ≤ c.toNat && c.toNat ≤ 0x200a) ||
  c.toNat == 0x2028 || c.toNat == 0x2029 || c.toNat == 0x202f ||
  c.toNat == 0x205f || c.toNat == 0x3000 || c.toNat == 0xfeff

/-- The `[a-zA-Z0-9_]` character class of the export-line regex. -/
def isWordChar (c : Char) : Bool :=
  c.isAlpha || c.isDigit || c == '_'

/-- Match of the literal `export` at the start of a line. -/
def stripExport : List Char → Option (List Char)
  | 'e' :: 'x' :: 'p' :: 'o' :: 'r' :: 't' :: rest => some rest
  | _ => none

/-- The regex `^export\s*([a-zA-Z0-9_]*)=(.*)$` applied to one line: the
literal `export`, a greedy whitespace run, a greedy word-character run (the
name, possibly empty), a literal `=`, and the remainder of the line (the
value).  The character classes are disjoint, so greedy matching is
deterministic and needs no backtracking. -/
def parseExportLine (line : String) : Option (String × String) :=
  match stripExport line.toList with
  | none => none
  | some rest =>
    let afterWs := rest.dropWhile isJsSpace
    let name := afterWs.takeWhile isWordChar
    match afterWs.dropWhile isWordChar with
    | '=' :: value => some (String.mk name, String.mk value)
    | _ => none

/-- Source `varValue = match[2].replace(/"/gi, '')`: remove every
double-quote character from the value. -/
def stripQuotes (v : String) : String :=
  String.mk (v.toList.filter (fun c => !(c == '"')))

/-- One structural pass computing the non-empty maximal runs of non-newline
characters (`acc` holds the current run, reversed). -/
def dockerEnvLinesAux : List Char → List Char → List String
  | [], acc => if acc.isEmpty then [] else [String.mk acc.reverse]
  | c :: rest, acc =>
    if c = '\r' ∨ c = '\n' then
      if acc.isEmpty then dockerEnvLinesAux rest []
      else String.mk acc.reverse :: dockerEnvLinesAux rest []
    else dockerEnvLinesAux rest (c :: acc)

/-- Source `stdout.split(/[\r\n]+/)` followed by
`lines.filter((l) => l.length > 0)`: the non-empty maximal runs of
non-newline characters (split on newline runs never yields an empty segment
except at the ends, so splitting and filtering fuse into one pass). -/
def dockerEnvLines (stdout : String) : List String :=
  dockerEnvLinesAux stdout.toList []

/-- Body of the per-line callback of `lines.map(...)`: a matching line
writes `NAME` to the quote-stripped `VALUE` in the process environment, a
non-matching line is only logged. -/
def applyStep (e : Env) (line : String) : Env :=
  match parseExportLine line with
  | some (m, v) => envSet e m (stripQuotes v)
  | none => e

/-- Lines 173-188 of the source: split the helper output into lines, drop
empty ones, and apply every matching `export NAME=VALUE` line to the process
environment in order. -/
def applyDockerEnvLines (stdout : String) (penv : Env) : Env :=
  (dockerEnvLines stdout).foldl applyStep penv

/-- The `tryMinishift` local of `autoDockerEnvConfig`: set when minikube is
not on PATH, or when `minikube docker-env` exits non-zero or writes to
standard error (truthiness of `shellResult.stderr`). -/
def tryMinishiftFlag (w : World) : Bool :=
  if w.whichMinikube then
    if w.minikubeResult.code ≠ 0 ∨ w.minikubeResult.stderr ≠ "" then true
    else false
  else true

/-- Body of `autoDockerEnvConfig` (lines 146-196).  The function never uses
its `env` parameter; its whole effect is on the process environment `penv`.
`Except.error ()` is the `TypeError` thrown at line 172 when
`shellResult.code` is read after line 162 reset `shellResult` to `null`
(the path where minikube ran and succeeded, so `tryMinishift` is false). -/
def autoDockerEnvCore (w : World) (penv : Env) : Except Unit (Bool × Env) :=
  if truthy (envLookup penv "DOCKER_HOST") = false ∧
     truthy (envLookup penv "DOCKER_CERT_PATH") = false then
    if tryMinishiftFlag w then
      if w.whichMinishift then
        if w.minishiftResult.code = 0 ∧ w.minishiftResult.stderr = "" then
          Except.ok (false, applyDockerEnvLines w.minishiftResult.stdout penv)
        else
          Except.ok (false, penv)
      else
        Except.ok (false, penv)
    else
      Except.error ()
  else
    Except.ok (false, penv)

/-- Source `autoDockerEnvConfig(env)`: takes a reference to an environment
object it never reads or writes; all its writes go to `process.env`. -/
def autoDockerEnvConfig (envRef : Nat) (h : Heap) (w : World) (penv : Env) :
    Except Unit (Bool × Heap × Env) :=
  match autoDockerEnvCore w penv with
  | Except.ok (b, penv') => Except.ok (b, h, penv')
  | Except.error e => Except.error e

/-- JS `String.prototype.toLowerCase`, character by character (the keys the
code compares are ASCII, where this agrees with the JS Unicode lowering). -/
def jsToLower (s : String) : String :=
  String.mk (s.toList.map Char.toLower)

/-- Source `pathVariableName(env)`: on Windows the first key of the object
whose lowercasing is `path`, defaulting to `PATH`; elsewhere always `PATH`. -/
def pathVariableName (isWin : Bool) (env : Env) : String :=
  if isWin then
    match env.find? (fun p => jsToLower p.1 == "path") with
    | some p => p.1
    | none => "PATH"
  else "PATH"

/-- Source `pathEntrySeparator()`. -/
def pathEntrySeparator (isWin : Bool) : String :=
  if isWin then ";" else ":"

/-- The `for (const tool of ['kubectl', 'helm', 'draft'])` loop of
`shellEnvironment`: for each configured tool, read the current PATH value
from the (mutable) environment copy, call `autoDockerEnvConfig` (whose
boolean result is discarded by the empty if/else), and write
`currentPath + separator + toolDirectory` back into the copy. -/
def shellEnvLoop (envRef : Nat) (cfg : Config) (w : World) (pathVariable : String) :
    List String → Heap → Env → Except Unit (Heap × Env)
  | [], h, penv => Except.ok (h, penv)
  | tool :: rest, h, penv =>
    if truthy (cfg.toolPath tool) then
      let toolDirectory := posixDirname ((cfg.toolPath tool).getD "")
      let currentPath := envLookup (heapGet h envRef) pathVariable
      match autoDockerEnvConfig envRef h w penv with
      | Except.error e => Except.error e
      | Except.ok (_, h1, penv1) =>
        let newVal :=
          (if truthy currentPath then
            currentPath.getD "" ++ pathEntrySeparator (isWindows w)
          else "") ++ toolDirectory
        shellEnvLoop envRef cfg w pathVariable rest
          (heapSet h1 envRef (envSet (heapGet h1 envRef) pathVariable newVal)) penv1
    else
      shellEnvLoop envRef cfg w pathVariable rest h penv

/-- Source `shellEnvironment(baseEnvironment)` (lines 120-143): copy the
base environment with `Object.assign({}, baseEnvironment)` (a fresh heap
object), run the tool loop on the copy, then set `KUBECONFIG` on the copy
when configured.  Returns the address of the copy together with the final
heap and process environment. -/
def shellEnvironment (baseRef : Nat) (cfg : Config) (w : World) (h : Heap)
    (penv : Env) : Except Unit (Nat × Heap × Env) :=
  let envRef := h.length
  let h1 := h ++ [heapGet h baseRef]
  let pathVariable := pathVariableName (isWindows w) (heapGet h1 envRef)
  match shellEnvLoop envRef cfg w pathVariable ["kubectl", "helm", "draft"] h1 penv with
  | Except.error e => Except.error e
  | Except.ok (h2, penv2) =>
    let h3 :=
      if truthy cfg.kubeconfig then
        heapSet h2 envRef (envSet (heapGet h2 envRef) "KUBECONFIG" (cfg.kubeconfig.getD ""))
      else h2
    Except.ok (envRef, h3, penv2)

/-- One step of the PATH value left to right over the tool list, as the code
computes it: a configured tool appends its directory at the end of the
current value. -/
def appendToolPath (isWin : Bool) (cur : Option String) (tp : Option String) :
    Option String :=
  if truthy tp then
    some ((if truthy cur then cur.getD "" ++ pathEntrySeparator isWin else "")
      ++ posixDirname (tp.getD ""))
  else cur

/-- Closed form of the PATH value the code produces: directories appended in
the fixed iteration order, later tools ending up closer to the end. -/
def toolsPathValue (cfg : Config) (isWin : Bool) (cur : Option String) :
    Option String :=
  ["kubectl", "helm", "draft"].foldl
    (fun c t => appendToolPath isWin c (cfg.toolPath t)) cur

/-- Modelled from the spec: one step of the claimed behaviour, which would
"compute its containing directory and prepend it to the PATH-equivalent
value", later tools ending up closer to the front.  Used only to compare the
claim against `toolsPathValue`/the code. -/
def specPrependToolPath (isWin : Bool) (cur : Option String) (tp : Option String) :
    Option String :=
  if truthy tp then
    some (posixDirname (tp.getD "")
      ++ (if truthy cur then pathEntrySeparator isWin ++ cur.getD "" else ""))
  else cur

/-- Modelled from the spec: the PATH value the claim describes, with tool
directories prepended in the fixed iteration order. -/
def specPrependPathValue (cfg : Config) (isWin : Bool) (cur : Option String) :
    Option String :=
  ["kubectl", "helm", "draft"].foldl
    (fun c t => specPrependToolPath isWin c (cfg.toolPath t)) cur

/-- Value of the last line of `lines` that matches the export pattern with
the given name, if any (later lines overwrite earlier ones). -/
def lastMatchValue : List String → String → Option String
  | [], _ => none
  | l :: rest, n =>
    match lastMatchValue rest n with
    | some v => some v
    | none =>
      match parseExportLine l with
      | some (m, v) => if m = n then some v else none
      | none => none

/-! ### Helper lemmas about the heap and environment operations -/

theorem length_heapSet : ∀ (h : Heap) (r : Nat) (e : Env),
    (heapSet h r e).length = h.length
  | [], _, _ => rfl
  | _ :: _, 0, _ => rfl
  | x :: t, n + 1, e => by simp [heapSet, length_heapSet t n e]

theorem heapGet_heapSet_self : ∀ (h : Heap) (r : Nat) (e : Env), r < h.length →
    heapGet (heapSet h r e) r = e
  | [], r, _, hr => by simp at hr
  | _ :: _, 0, _, _ => rfl
  | x :: t, n + 1, e, hr =>
    heapGet_heapSet_self t n e (Nat.lt_of_succ_lt_succ hr)

theorem heapGet_heapSet_ne : ∀ (h : Heap) (r i : Nat) (e : Env), i ≠ r →
    heapGet (heapSet h r e) i = heapGet h i
  | [], _, _, _, _ => rfl
  | _ :: _, 0, 0, _, hne => absurd rfl hne
  | _ :: _, 0, _ + 1, _, _ => rfl
  | _ :: _, _ + 1, 0, _, _ => rfl
  | x :: t, r + 1, i + 1, e, hne =>
    heapGet_heapSet_ne t r i e (fun hh => hne (by rw [hh]))

theorem heapGet_append_lt : ∀ (h : Heap) (i : Nat) (e : Env), i < h.length →
    heapGet (h ++ [e]) i = heapGet h i
  | [], i, _, hi => by simp at hi
  | _ :: _, 0, _, _ => rfl
  | x :: t, i + 1, e, hi => heapGet_append_lt t i e (Nat.lt_of_succ_lt_succ hi)

theorem heapGet_append_len : ∀ (h : Heap) (e : Env),
    heapGet (h ++ [e]) h.length = e
  | [], _ => rfl
  | x :: t, e => heapGet_append_len t e

theorem envLookup_envSet_self : ∀ (e : Env) (k v : String),
    envLookup (envSet e k v) k = some v
  | [], k, v => by simp [envSet, envLookup]
  | (a, x) :: t, k, v => by
    by_cases hak : a = k
    · simp [envSet, hak, envLookup]
    · simp [envSet, hak, envLookup, envLookup_envSet_self t k v]

theorem envLookup_envSet_ne : ∀ (e : Env) (k k' v : String), k' ≠ k →
    envLookup (envSet e k v) k' = envLookup e k'
  | [], k, k', v, hne => by
    simp [envSet, envLookup, Ne.symm hne]
  | (a, x) :: t, k, k', v, hne => by
    by_cases hak : a = k
    · subst hak
      simp [envSet, envLookup, Ne.symm hne]
    · simp only [envSet, if_neg hak, envLookup]
      by_cases hak' : a = k'
      · simp [hak']
      · simp [hak', envLookup_envSet_ne t k k' v hne]

/-! ### Helper lemmas about the auto-detection core and the tool loop -/

theorem autoDockerEnvCore_false (w : World) (penv : Env) (b : Bool) (p' : Env)
    (hok : autoDockerEnvCore w penv = Except.ok (b, p')) : b = false := by
  unfold autoDockerEnvCore at hok
  split at hok
  · split at hok
    · split at hok
      · split at hok
        · simp only [Except.ok.injEq, Prod.mk.injEq] at hok
          exact hok.1.symm
        · simp only [Except.ok.injEq, Prod.mk.injEq] at hok
          exact hok.1.symm
      · simp only [Except.ok.injEq, Prod.mk.injEq] at hok
        exact hok.1.symm
    · exact absurd hok (by simp)
  · simp only [Except.ok.injEq, Prod.mk.injEq] at hok
    exact hok.1.symm

theorem autoDockerEnvConfig_heap (envRef : Nat) (h : Heap) (w : World)
    (penv : Env) (b : Bool) (h' : Heap) (penv' : Env)
    (hok : autoDockerEnvConfig envRef h w penv = Except.ok (b, h', penv')) :
    h' = h ∧ autoDockerEnvCore w penv = Except.ok (b, penv') := by
  unfold autoDockerEnvConfig at hok
  cases hc : autoDockerEnvCore w penv with
  | error e => rw [hc] at hok; simp at hok
  | ok bp =>
    obtain ⟨b0, p0⟩ := bp
    rw [hc] at hok
    simp only [Except.ok.injEq, Prod.mk.injEq] at hok
    obtain ⟨hb, hh, hp⟩ := hok
    subst hb; subst hh; subst hp
    exact ⟨rfl, rfl⟩

theorem pathVariableName_ne_kubeconfig (isWin : Bool) (env : Env) :
    pathVariableName isWin env ≠ "KUBECONFIG" := by
  unfold pathVariableName
  split
  · cases hf : env.find? (fun p => jsToLower p.1 == "path") with
    | none => decide
    | some p =>
      have hp := List.find?_some hf
      have hlow : jsToLower p.1 = "path" := by simpa using hp
      show p.1 ≠ "KUBECONFIG"
      intro hcon
      rw [hcon] at hlow
      exact absurd hlow (by decide)
  · decide

theorem shellEnvLoop_frame (envRef : Nat) (cfg : Config) (w : World) (pv : String) :
    ∀ (tools : List String) (h : Heap) (penv : Env) (h' : Heap) (penv' : Env),
    shellEnvLoop envRef cfg w pv tools h penv = Except.ok (h', penv') →
    h'.length = h.length ∧ ∀ i, i ≠ envRef → heapGet h' i = heapGet h i := by
  intro tools
  induction tools with
  | nil =>
    intro h penv h' penv' heq
    simp only [shellEnvLoop, Except.ok.injEq, Prod.mk.injEq] at heq
    obtain ⟨hh, _⟩ := heq
    subst hh
    exact ⟨rfl, fun i _ => rfl⟩
  | cons tool rest ih =>
    intro h penv h' penv' heq
    simp only [shellEnvLoop] at heq
    split at heq
    · split at heq
      · exact absurd heq (by simp)
      · rename_i b0 h0 p0 hc
        obtain ⟨hh0, _⟩ := autoDockerEnvConfig_heap envRef h w penv b0 h0 p0 hc
        rw [hh0] at heq
        obtain ⟨hlen, hfr⟩ := ih _ _ _ _ heq
        constructor
        · rw [hlen, length_heapSet]
        · intro i hi
          rw [hfr i hi, heapGet_heapSet_ne h envRef i _ hi]
    · exact ih _ _ _ _ heq

theorem shellEnvLoop_pathValue (envRef : Nat) (cfg : Config) (w : World) (pv : String) :
    ∀ (tools : List String) (h : Heap) (penv : Env) (h' : Heap) (penv' : Env),
    envRef < h.length →
    shellEnvLoop envRef cfg w pv tools h penv = Except.ok (h', penv') →
    envLookup (heapGet h' envRef) pv =
      tools.foldl (fun c t => appendToolPath (isWindows w) c (cfg.toolPath t))
        (envLookup (heapGet h envRef) pv) := by
  intro tools
  induction tools with
  | nil =>
    intro h penv h' penv' _ heq
    simp only [shellEnvLoop, Except.ok.injEq, Prod.mk.injEq] at heq
    obtain ⟨hh, _⟩ := heq
    subst hh
    rfl
  | cons tool rest ih =>
    intro h penv h' penv' hlt heq
    simp only [shellEnvLoop] at heq
    rw [List.foldl_cons]
    split at heq
    · next htp =>
      split at heq
      · exact absurd heq (by simp)
      · rename_i b0 h0 p0 hc
        obtain ⟨hh0, _⟩ := autoDockerEnvConfig_heap envRef h w penv b0 h0 p0 hc
        rw [hh0] at heq
        have hlt2 : envRef < (heapSet h envRef
            (envSet (heapGet h envRef) pv
              ((if truthy (envLookup (heapGet h envRef) pv) then
                  (envLookup (heapGet h envRef) pv).getD "" ++
                    pathEntrySeparator (isWindows w)
                else "") ++ posixDirname ((cfg.toolPath tool).getD "")))).length := by
          rw [length_heapSet]; exact hlt
        have hres := ih _ _ _ _ hlt2 heq
        rw [hres, heapGet_heapSet_self h envRef _ hlt, envLookup_envSet_self]
        have happ : appendToolPath (isWindows w)
            (envLookup (heapGet h envRef) pv) (cfg.toolPath tool) =
            some ((if truthy (envLookup (heapGet h envRef) pv) then
                (envLookup (heapGet h envRef) pv).getD "" ++
                  pathEntrySeparator (isWindows w)
              else "") ++ posixDirname ((cfg.toolPath tool).getD "")) := by
          unfold appendToolPath
          rw [if_pos htp]
        rw [happ]
    · next htp =>
      rw [ih _ _ _ _ hlt heq]
      have happ : appendToolPath (isWindows w)
          (envLookup (heapGet h envRef) pv) (cfg.toolPath tool) =
          envLookup (heapGet h envRef) pv := by
        unfold appendToolPath
        rw [if_neg htp]
      rw [happ]

theorem envLookup_applyLines (lines : List String) : ∀ (penv : Env) (n : String),
    envLookup (lines.foldl applyStep penv) n =
      (match lastMatchValue lines n with
       | some v => some (stripQuotes v)
       | none => envLookup penv n) := by
  induction lines with
  | nil => intro penv n; rfl
  | cons l rest ih =>
    intro penv n
    rw [List.foldl_cons, ih (applyStep penv l) n]
    unfold applyStep
    cases hp : parseExportLine l with
    | none =>
      cases hr : lastMatchValue rest n with
      | none => simp [lastMatchValue, hr, hp]
      | some wv => simp [lastMatchValue, hr]
    | some mv =>
      obtain ⟨m, v⟩ := mv
      by_cases hmn : m = n
      · subst hmn
        cases hr : lastMatchValue rest m with
        | none => simp [lastMatchValue, hr, hp, envLookup_envSet_self]
        | some wv => simp [lastMatchValue, hr]
      · cases hr : lastMatchValue rest n with
        | none =>
          simp [lastMatchValue, hr, hp, hmn,
            envLookup_envSet_ne penv m n _ (Ne.symm hmn)]
        | some wv => simp [lastMatchValue, hr]

/-! ### Claim theorems -/

/-- C1 (code-bug evidence): with minikube discoverable on PATH and
`minikube docker-env` exiting 0 with empty standard error and the output
line `export DOCKER_HOST="tcp://1.2.3.4:2376"`, `autoDockerEnvConfig` does
not apply the output and return — it throws the `null`-dereference
`TypeError` of line 172 (`shellResult` was reset to `null` at line 162 and
`tryMinishift` is false on this path), so `DOCKER_HOST` is never written. -/
theorem autoDockerEnvConfig_minikube_success_throws :
    autoDockerEnvConfig 0 []
      ⟨"linux", true, false,
        ⟨0, "export DOCKER_HOST=\"tcp://1.2.3.4:2376\"\n", ""⟩, ⟨0, "", ""⟩⟩ [] =
      Except.error () := rfl

/-- C3: whenever `autoDockerEnvConfig` returns normally, the returned
boolean is `false` — including the success path on which helper output was
applied to the process environment. -/
theorem autoDockerEnvConfig_returns_false (r : Nat) (h : Heap) (w : World)
    (penv : Env) (b : Bool) (h' : Heap) (penv' : Env)
    (hok : autoDockerEnvConfig r h w penv = Except.ok (b, h', penv')) :
    b = false := by
  have hcore := (autoDockerEnvConfig_heap r h w penv b h' penv' hok).2
  exact autoDockerEnvCore_false w penv b penv' hcore

/-- Witness for C3: a run in which the minishift helper succeeded and its
variable was applied to the process environment, yet `false` was returned. -/
theorem autoDockerEnvConfig_returns_false_witness :
    autoDockerEnvConfig 0 []
      ⟨"linux", false, true, ⟨0, "", ""⟩, ⟨0, "export A=1\n", ""⟩⟩ [] =
      Except.ok (false, ([] : Heap), [("A", "1")]) ∧ false = false :=
  ⟨rfl, autoDockerEnvConfig_returns_false 0 []
    ⟨"linux", false, true, ⟨0, "", ""⟩, ⟨0, "export A=1\n", ""⟩⟩ [] false []
    [("A", "1")] rfl⟩

/-- C4 (counterexample to the claim as stated): with `DOCKER_HOST` present
in the process environment but holding the empty string, the guard of
`autoDockerEnvConfig` (JS truthiness) does not skip: the minishift helper
runs and the process environment is extended, so "already set" is not
enough for the skip — the value must be non-empty. -/
theorem autoDockerEnvConfig_empty_string_still_runs :
    autoDockerEnvConfig 0 []
      ⟨"linux", false, true, ⟨0, "", ""⟩, ⟨0, "export FOO=1\n", ""⟩⟩
      [("DOCKER_HOST", "")] =
      Except.ok (false, ([] : Heap), [("DOCKER_HOST", ""), ("FOO", "1")]) ∧
    ([("DOCKER_HOST", ""), ("FOO", "1")] : Env) ≠ [("DOCKER_HOST", "")] :=
  ⟨rfl, by decide⟩

/-- C4 (amended): if `DOCKER_HOST` or `DOCKER_CERT_PATH` is set to a
non-empty (JS-truthy) value in the process environment, the call returns
`false`, runs no helper, and leaves both the heap and every variable of the
process environment unchanged. -/
theorem autoDockerEnvConfig_skips_when_configured (r : Nat) (h : Heap)
    (w : World) (penv : Env)
    (hset : truthy (envLookup penv "DOCKER_HOST") = true ∨
            truthy (envLookup penv "DOCKER_CERT_PATH") = true) :
    autoDockerEnvConfig r h w penv = Except.ok (false, h, penv) := by
  unfold autoDockerEnvConfig autoDockerEnvCore
  rcases hset with h1 | h1 <;> simp [h1]

/-- Witness for C4 (amended): with `DOCKER_HOST` explicitly configured, the
call skips even in a world where the minikube path would have thrown. -/
theorem autoDockerEnvConfig_skips_witness :
    autoDockerEnvConfig 0 []
      ⟨"linux", true, false, ⟨0, "export A=1\n", ""⟩, ⟨0, "", ""⟩⟩
      [("DOCKER_HOST", "tcp://explicit:2376")] =
      Except.ok (false, ([] : Heap), [("DOCKER_HOST", "tcp://explicit:2376")]) :=
  autoDockerEnvConfig_skips_when_configured 0 []
    ⟨"linux", true, false, ⟨0, "export A=1\n", ""⟩, ⟨0, "", ""⟩⟩
    [("DOCKER_HOST", "tcp://explicit:2376")] (Or.inl (by decide))

/-- C5: on a helper invocation that exits 0 with empty standard error
(reached via the minishift path), the output is split into lines, empty
lines are discarded, every line matching `export NAME=VALUE` writes `NAME`
to `VALUE` with all double quotes removed into the process environment (the
last matching line for a name wins), and any name not assigned by a
matching line keeps its previous value — non-matching lines are skipped
without aborting. -/
theorem autoDockerEnvConfig_parses_exports (r : Nat) (h : Heap) (w : World)
    (penv : Env) (n : String)
    (hdh : truthy (envLookup penv "DOCKER_HOST") = false)
    (hdc : truthy (envLookup penv "DOCKER_CERT_PATH") = false)
    (hmk : w.whichMinikube = false ∨ w.minikubeResult.code ≠ 0 ∨
           w.minikubeResult.stderr ≠ "")
    (hms : w.whichMinishift = true)
    (hc : w.minishiftResult.code = 0)
    (he : w.minishiftResult.stderr = "") :
    autoDockerEnvConfig r h w penv =
      Except.ok (false, h, applyDockerEnvLines w.minishiftResult.stdout penv) ∧
    envLookup (applyDockerEnvLines w.minishiftResult.stdout penv) n =
      (match lastMatchValue (dockerEnvLines w.minishiftResult.stdout) n with
       | some v => some (stripQuotes v)
       | none => envLookup penv n) := by
  constructor
  · have htm : tryMinishiftFlag w = true := by
      rcases hmk with h1 | h2 | h3
      · simp [tryMinishiftFlag, h1]
      · have hcond : w.minikubeResult.code ≠ 0 ∨ w.minikubeResult.stderr ≠ "" :=
          Or.inl h2
        simp [tryMinishiftFlag, hcond]
      · have hcond : w.minikubeResult.code ≠ 0 ∨ w.minikubeResult.stderr ≠ "" :=
          Or.inr h3
        simp [tryMinishiftFlag, hcond]
    simp [autoDockerEnvConfig, autoDockerEnvCore, hdh, hdc, htm, hms, hc, he]
  · exact envLookup_applyLines (dockerEnvLines w.minishiftResult.stdout) penv n

/-- Witness for C5: the spec's fake-helper output applied to an empty
process environment: the quotes are stripped and the noise line skipped. -/
theorem autoDockerEnvConfig_parses_exports_witness :
    autoDockerEnvConfig 0 []
      ⟨"linux", false, true, ⟨0, "", ""⟩,
        ⟨0, "export DOCKER_HOST=\"tcp://1.2.3.4:2376\"\nsome noise\n", ""⟩⟩ [] =
      Except.ok (false, ([] : Heap), [("DOCKER_HOST", "tcp://1.2.3.4:2376")]) ∧
    envLookup [("DOCKER_HOST", "tcp://1.2.3.4:2376")] "DOCKER_HOST" =
      some "tcp://1.2.3.4:2376" :=
  ⟨(autoDockerEnvConfig_parses_exports 0 []
      ⟨"linux", false, true, ⟨0, "", ""⟩,
        ⟨0, "export DOCKER_HOST=\"tcp://1.2.3.4:2376\"\nsome noise\n", ""⟩⟩ []
      "DOCKER_HOST" rfl rfl (Or.inl rfl) rfl rfl rfl).1,
   (autoDockerEnvConfig_parses_exports 0 []
      ⟨"linux", false, true, ⟨0, "", ""⟩,
        ⟨0, "export DOCKER_HOST=\"tcp://1.2.3.4:2376\"\nsome noise\n", ""⟩⟩ []
      "DOCKER_HOST" rfl rfl (Or.inl rfl) rfl rfl rfl).2⟩

/-- C6: when neither minikube nor minishift is discoverable on PATH and the
two Docker variables are unset, `autoDockerEnvConfig` returns `false`
normally (no exception is thrown) and changes nothing. -/
theorem autoDockerEnvConfig_no_helpers (r : Nat) (h : Heap) (w : World)
    (penv : Env)
    (hmk : w.whichMinikube = false) (hms : w.whichMinishift = false)
    (hdh : envLookup penv "DOCKER_HOST" = none)
    (hdc : envLookup penv "DOCKER_CERT_PATH" = none) :
    autoDockerEnvConfig r h w penv = Except.ok (false, h, penv) := by
  unfold autoDockerEnvConfig autoDockerEnvCore tryMinishiftFlag
  simp [hmk, hms, hdh, hdc, truthy]

/-- Witness for C6: an empty world and environment. -/
theorem autoDockerEnvConfig_no_helpers_witness :
    autoDockerEnvConfig 0 [] ⟨"linux", false, false, ⟨0, "", ""⟩, ⟨0, "", ""⟩⟩ [] =
      Except.ok (false, ([] : Heap), ([] : Env)) :=
  autoDockerEnvConfig_no_helpers 0 []
    ⟨"linux", false, false, ⟨0, "", ""⟩, ⟨0, "", ""⟩⟩ [] rfl rfl rfl rfl

/-- C2 (counterexample to the claim as stated): with kubectl configured at
`/k/kubectl` and helm at `/h/helm` over a base PATH of `/usr/bin`, the code
produces `/usr/bin:/k:/h` — each tool directory is appended at the end, so
later tools are closer to the end — whereas prepending (as claimed) would
give `/h:/k:/usr/bin`. -/
theorem shellEnvironment_prepend_refuted :
    shellEnvironment 0 ⟨some "/k/kubectl", some "/h/helm", none, none⟩
      ⟨"linux", false, false, ⟨0, "", ""⟩, ⟨0, "", ""⟩⟩
      [[("PATH", "/usr/bin")]] [] =
      Except.ok (1, [[("PATH", "/usr/bin")], [("PATH", "/usr/bin:/k:/h")]], []) ∧
    specPrependPathValue ⟨some "/k/kubectl", some "/h/helm", none, none⟩ false
      (some "/usr/bin") = some "/h:/k:/usr/bin" ∧
    (some "/usr/bin:/k:/h" : Option String) ≠ some "/h:/k:/usr/bin" :=
  ⟨rfl, rfl, by decide⟩

/-- C2 (amended): on every normal return of `shellEnvironment`, the PATH
value of the returned environment copy equals the base PATH value with each
configured tool's containing directory appended, in the fixed iteration
order kubectl, helm, draft — later tools ending up closer to the end of the
final PATH string. -/
theorem shellEnvironment_path_append (baseRef : Nat) (cfg : Config) (w : World)
    (h : Heap) (penv : Env) (r : Nat) (h' : Heap) (penv' : Env)
    (heq : shellEnvironment baseRef cfg w h penv = Except.ok (r, h', penv')) :
    envLookup (heapGet h' r) (pathVariableName (isWindows w) (heapGet h baseRef)) =
      toolsPathValue cfg (isWindows w)
        (envLookup (heapGet h baseRef)
          (pathVariableName (isWindows w) (heapGet h baseRef))) := by
  have hbase : heapGet (h ++ [heapGet h baseRef]) h.length = heapGet h baseRef :=
    heapGet_append_len h (heapGet h baseRef)
  simp only [shellEnvironment] at heq
  rw [hbase] at heq
  split at heq
  · exact absurd heq (by simp)
  · rename_i h2 penv2 hloop
    simp only [Except.ok.injEq, Prod.mk.injEq] at heq
    obtain ⟨hr, hh', _⟩ := heq
    have hlt : h.length < (h ++ [heapGet h baseRef]).length := by simp
    have hval := shellEnvLoop_pathValue h.length cfg w
      (pathVariableName (isWindows w) (heapGet h baseRef))
      ["kubectl", "helm", "draft"] (h ++ [heapGet h baseRef]) penv h2 penv2
      hlt hloop
    rw [hbase] at hval
    obtain ⟨hlen2, _⟩ := shellEnvLoop_frame h.length cfg w
      (pathVariableName (isWindows w) (heapGet h baseRef))
      ["kubectl", "helm", "draft"] (h ++ [heapGet h baseRef]) penv h2 penv2 hloop
    have hlt2 : h.length < h2.length := by rw [hlen2]; simp
    subst hr
    rw [← hh']
    split
    · rw [heapGet_heapSet_self h2 h.length _ hlt2,
        envLookup_envSet_ne (heapGet h2 h.length) "KUBECONFIG"
          (pathVariableName (isWindows w) (heapGet h baseRef))
          (cfg.kubeconfig.getD "") (pathVariableName_ne_kubeconfig _ _)]
      exact hval
    · exact hval

/-- Witness for C2 (amended): the counterexample run, checked against the
closed append form. -/
theorem shellEnvironment_path_append_witness :
    envLookup (heapGet [[("PATH", "/usr/bin")], [("PATH", "/usr/bin:/k:/h")]] 1)
      "PATH" =
      toolsPathValue ⟨some "/k/kubectl", some "/h/helm", none, none⟩ false
        (some "/usr/bin") :=
  shellEnvironment_path_append 0 ⟨some "/k/kubectl", some "/h/helm", none, none⟩
    ⟨"linux", false, false, ⟨0, "", ""⟩, ⟨0, "", ""⟩⟩ [[("PATH", "/usr/bin")]] []
    1 [[("PATH", "/usr/bin")], [("PATH", "/usr/bin:/k:/h")]] [] rfl

/-- C7: `platform()` is total over OS identifiers — the result is always one
of the four enumerated values — with `win32`, `darwin` and `linux` mapped to
their platforms and every other identifier mapped to `Unsupported`. -/
theorem platform_four_values (w : World) :
    (platform w = Platform.Windows ∨ platform w = Platform.MacOS ∨
     platform w = Platform.Linux ∨ platform w = Platform.Unsupported) ∧
    (w.platform = "win32" → platform w = Platform.Windows) ∧
    (w.platform = "darwin" → platform w = Platform.MacOS) ∧
    (w.platform = "linux" → platform w = Platform.Linux) ∧
    (w.platform ≠ "win32" → w.platform ≠ "darwin" → w.platform ≠ "linux" →
      platform w = Platform.Unsupported) := by
  refine ⟨?_, ?_, ?_, ?_, ?_⟩
  · by_cases h1 : w.platform = "win32"
    · exact Or.inl (by unfold platform; rw [if_pos h1])
    · by_cases h2 : w.platform = "darwin"
      · exact Or.inr (Or.inl (by unfold platform; rw [if_neg h1, if_pos h2]))
      · by_cases h3 : w.platform = "linux"
        · exact Or.inr (Or.inr (Or.inl
            (by unfold platform; rw [if_neg h1, if_neg h2, if_pos h3])))
        · exact Or.inr (Or.inr (Or.inr
            (by unfold platform; rw [if_neg h1, if_neg h2, if_neg h3])))
  · intro h1; unfold platform; rw [if_pos h1]
  · intro h1
    unfold platform
    rw [if_neg (by rw [h1]; decide), if_pos h1]
  · intro h1
    unfold platform
    rw [if_neg (by rw [h1]; decide), if_neg (by rw [h1]; decide), if_pos h1]
  · intro h1 h2 h3
    unfold platform
    rw [if_neg h1, if_neg h2, if_neg h3]

/-- Witness for C7: an unmapped identifier yields `Unsupported`. -/
theorem platform_four_values_witness :
    platform ⟨"sunos", false, false, ⟨0, "", ""⟩, ⟨0, "", ""⟩⟩ =
      Platform.Unsupported :=
  (platform_four_values
    ⟨"sunos", false, false, ⟨0, "", ""⟩, ⟨0, "", ""⟩⟩).2.2.2.2
    (by decide) (by decide) (by decide)

/-- C8: `combinePath` joins with a backslash on Windows after rewriting
every forward slash of the relative part to a backslash (stated character
by character), and joins with a forward slash leaving the relative part
unmodified on Unix-like systems; in particular `combinePath "/a" "b/c"`
yields `/a/b/c` on Unix and `/a\b\c` on Windows. -/
theorem combinePath_spec (w : World) (b r : String) :
    (isWindows w = true →
      (combinePath w b r).toList =
        b.toList ++ '\\' :: r.toList.map (fun c => if c = '/' then '\\' else c)) ∧
    (isWindows w = false → combinePath w b r = b ++ "/" ++ r) ∧
    combinePath ⟨"linux", false, false, ⟨0, "", ""⟩, ⟨0, "", ""⟩⟩ "/a" "b/c" =
      "/a/b/c" ∧
    combinePath ⟨"win32", false, false, ⟨0, "", ""⟩, ⟨0, "", ""⟩⟩ "/a" "b/c" =
      "/a\\b\\c" := by
  refine ⟨?_, ?_, rfl, rfl⟩
  · intro hw
    unfold combinePath
    rw [if_pos hw]
    show ((b ++ "\\") ++ replaceAllChar '/' '\\' r).data = _
    rw [String.data_append, String.data_append]
    simp [replaceAllChar, String.toList]
  · intro hw
    unfold combinePath
    rw [hw]
    simp

/-- Witness for C8: both implications at the concrete inputs of the claim. -/
theorem combinePath_spec_witness :
    (combinePath ⟨"win32", false, false, ⟨0, "", ""⟩, ⟨0, "", ""⟩⟩ "/a" "b/c").toList =
      "/a".toList ++ '\\' :: "b/c".toList.map (fun c => if c = '/' then '\\' else c) ∧
    combinePath ⟨"darwin", false, false, ⟨0, "", ""⟩, ⟨0, "", ""⟩⟩ "/a" "b/c" =
      "/a" ++ "/" ++ "b/c" :=
  ⟨(combinePath_spec ⟨"win32", false, false, ⟨0, "", ""⟩, ⟨0, "", ""⟩⟩ "/a" "b/c").1 rfl,
   (combinePath_spec ⟨"darwin", false, false, ⟨0, "", ""⟩, ⟨0, "", ""⟩⟩ "/a" "b/c").2.1 rfl⟩

/-- C9: `fileUri` produces, on Windows, the URI `file:///` followed by the
path with every backslash rewritten to a forward slash (stated character by
character), and elsewhere `file://` followed by the unmodified path; in
particular `C:\a\b` yields `file:///C:/a/b` on Windows and `/a/b` yields
`file:///a/b` on Unix. -/
theorem fileUri_spec (w : World) (p : String) :
    (isWindows w = true →
      fileUri w p = Uri.mk ("file:///" ++ replaceAllChar '\\' '/' p)) ∧
    (isWindows w = false → fileUri w p = Uri.mk ("file://" ++ p)) ∧
    (replaceAllChar '\\' '/' p).toList =
      p.toList.map (fun c => if c = '\\' then '/' else c) ∧
    fileUri ⟨"win32", false, false, ⟨0, "", ""⟩, ⟨0, "", ""⟩⟩ "C:\\a\\b" =
      Uri.mk "file:///C:/a/b" ∧
    fileUri ⟨"linux", false, false, ⟨0, "", ""⟩, ⟨0, "", ""⟩⟩ "/a/b" =
      Uri.mk "file:///a/b" := by
  refine ⟨?_, ?_, rfl, rfl, rfl⟩
  · intro hw
    unfold fileUri
    rw [if_pos hw]
  · intro hw
    unfold fileUri
    rw [hw]
    simp

/-- Witness for C9: both implications at the concrete inputs of the claim. -/
theorem fileUri_spec_witness :
    fileUri ⟨"win32", false, false, ⟨0, "", ""⟩, ⟨0, "", ""⟩⟩ "C:\\a\\b" =
      Uri.mk ("file:///" ++ replaceAllChar '\\' '/' "C:\\a\\b") ∧
    fileUri ⟨"darwin", false, false, ⟨0, "", ""⟩, ⟨0, "", ""⟩⟩ "/a/b" =
      Uri.mk ("file://" ++ "/a/b") :=
  ⟨(fileUri_spec ⟨"win32", false, false, ⟨0, "", ""⟩, ⟨0, "", ""⟩⟩ "C:\\a\\b").1 rfl,
   (fileUri_spec ⟨"darwin", false, false, ⟨0, "", ""⟩, ⟨0, "", ""⟩⟩ "/a/b").2.1 rfl⟩

/-- C10: caller-supplied environment objects are never mutated:
`shellEnvironment` allocates a fresh copy (the returned address is the
fresh one past the existing heap) and every pre-existing heap object is
unchanged on return; `autoDockerEnvConfig` returns its heap unchanged and
its result is independent of the environment reference and heap it is
handed — all its writes go to the process-wide environment only. -/
theorem callerEnv_not_mutated :
    (∀ (baseRef : Nat) (cfg : Config) (w : World) (h : Heap) (penv : Env)
       (r : Nat) (h' : Heap) (penv' : Env),
       shellEnvironment baseRef cfg w h penv = Except.ok (r, h', penv') →
         r = h.length ∧ h'.length = h.length + 1 ∧
         ∀ i, i < h.length → heapGet h' i = heapGet h i) ∧
    (∀ (r1 r2 : Nat) (h1 h2 : Heap) (w : World) (penv : Env),
       Except.map (fun x : Bool × Heap × Env => (x.1, x.2.2))
           (autoDockerEnvConfig r1 h1 w penv) =
         Except.map (fun x : Bool × Heap × Env => (x.1, x.2.2))
           (autoDockerEnvConfig r2 h2 w penv)) ∧
    (∀ (r1 : Nat) (h1 : Heap) (w : World) (penv : Env) (b : Bool)
       (h' : Heap) (penv' : Env),
       autoDockerEnvConfig r1 h1 w penv = Except.ok (b, h', penv') → h' = h1) := by
  refine ⟨?_, ?_, ?_⟩
  · intro baseRef cfg w h penv r h' penv' heq
    simp only [shellEnvironment] at heq
    split at heq
    · exact absurd heq (by simp)
    · rename_i h2 penv2 hloop
      simp only [Except.ok.injEq, Prod.mk.injEq] at heq
      obtain ⟨hr, hh', _⟩ := heq
      obtain ⟨hlen2, hfr⟩ := shellEnvLoop_frame h.length cfg w
        (pathVariableName (isWindows w)
          (heapGet (h ++ [heapGet h baseRef]) h.length))
        ["kubectl", "helm", "draft"] (h ++ [heapGet h baseRef]) penv h2 penv2 hloop
      have hlenapp : (h ++ [heapGet h baseRef]).length = h.length + 1 := by simp
      refine ⟨hr.symm, ?_, ?_⟩
      · rw [← hh']
        split
        · rw [length_heapSet, hlen2, hlenapp]
        · rw [hlen2, hlenapp]
      · intro i hi
        have hne : i ≠ h.length := Nat.ne_of_lt hi
        have hb : heapGet (h ++ [heapGet h baseRef]) i = heapGet h i :=
          heapGet_append_lt h i (heapGet h baseRef) hi
        rw [← hh']
        split
        · rw [heapGet_heapSet_ne h2 h.length i _ hne, hfr i hne, hb]
        · rw [hfr i hne, hb]
  · intro r1 r2 h1 h2 w penv
    unfold autoDockerEnvConfig
    cases autoDockerEnvCore w penv with
    | error e => rfl
    | ok bp => obtain ⟨b, p⟩ := bp; rfl
  · intro r1 h1 w penv b h' penv' heq
    exact (autoDockerEnvConfig_heap r1 h1 w penv b h' penv' heq).1

/-- Witness for C10: a concrete run leaves the base object untouched, and
two calls of `autoDockerEnvConfig` handed different references and heaps
agree on their boolean result and process environment. -/
theorem callerEnv_not_mutated_witness :
    heapGet [[("PATH", "/usr/bin")], [("PATH", "/usr/bin:/k")]] 0 =
      heapGet [[("PATH", "/usr/bin")]] 0 ∧
    Except.map (fun x : Bool × Heap × Env => (x.1, x.2.2))
        (autoDockerEnvConfig 0 []
          ⟨"linux", false, false, ⟨0, "", ""⟩, ⟨0, "", ""⟩⟩ []) =
      Except.map (fun x : Bool × Heap × Env => (x.1, x.2.2))
        (autoDockerEnvConfig 5 [[("A", "b")]]
          ⟨"linux", false, false, ⟨0, "", ""⟩, ⟨0, "", ""⟩⟩ []) ∧
    ([[("A", "b")]] : Heap) = [[("A", "b")]] :=
  ⟨(callerEnv_not_mutated.1 0 ⟨some "/k/kubectl", none, none, none⟩
      ⟨"linux", false, false, ⟨0, "", ""⟩, ⟨0, "", ""⟩⟩ [[("PATH", "/usr/bin")]] []
      1 [[("PATH", "/usr/bin")], [("PATH", "/usr/bin:/k")]] [] rfl).2.2 0
      (by decide),
   callerEnv_not_mutated.2.1 0 5 [] [[("A", "b")]]
     ⟨"linux", false, false, ⟨0, "", ""⟩, ⟨0, "", ""⟩⟩ [],
   callerEnv_not_mutated.2.2 5 [[("A", "b")]]
     ⟨"linux", false, false, ⟨0, "", ""⟩, ⟨0, "", ""⟩⟩ [] false [[("A", "b")]] []
     rfl⟩
